import Mathlib

/-!
# Verification of the TKRPeak stock-analysis extension

Shallow embedding of the parts of the TKRPeak Chrome extension that the
specification talks about, together with proofs about them.

Modelling conventions:
* A JavaScript number is modelled as a rational (`ℚ`); the code under
  consideration never produces `NaN`/`Infinity` on the paths we model
  because every division is guarded by a zero test, so `ℚ` is adequate.
* A JavaScript value that may be `null`/`undefined` is `Option ℚ`
  (both falsy values collapse to `none`; the code never distinguishes them
  on these paths).
* JavaScript truthiness on such a value: `none` and `some 0` are falsy.
* Strings are modelled as `List Char` where character-level scanning
  matters (the recommendation regex), as `String` elsewhere.
-/

/-- JS truthiness of a possibly-null number: `null`/`undefined` and `0` are
falsy, every other number is truthy. -/
def truthy : Option ℚ → Bool
  | none => false
  | some q => q != 0

/-- `a || b` on possibly-null numbers: the left operand if truthy, else the
right one. -/
def jsOr (a b : Option ℚ) : Option ℚ :=
  if truthy a then a else b

/-- `v || 0` on a possibly-null number. -/
def orZero (v : Option ℚ) : ℚ :=
  match v with
  | none => 0
  | some q => q

/-- Embeds `YahooFinanceAdvancedAPI.calculateRatio` (background-compiled.js):
`if (numerator && denominator && denominator !== 0) return numerator / denominator;
return null;`.  The catch-all covers the falsy (`null`/`undefined`) operands;
for numbers, truthiness already excludes `0`, making the explicit
`denominator !== 0` test redundant but kept in spirit by the `d ≠ 0` conjunct. -/
def calculateRatio : Option ℚ → Option ℚ → Option ℚ
  | some n, some d => if n ≠ 0 ∧ d ≠ 0 then some (n / d) else none
  | _, _ => none

/-- Embeds `YahooFinanceAdvancedAPI.calculateNetDebt` (background-compiled.js):
`if (totalDebt && totalCash) return totalDebt - totalCash; return null;`. -/
def calculateNetDebt : Option ℚ → Option ℚ → Option ℚ
  | some td, some tc => if td ≠ 0 ∧ tc ≠ 0 then some (td - tc) else none
  | _, _ => none

/-- The fields of the `extendedData` object consumed by
`combineFinancialData` (background-compiled.js). -/
structure ExtendedData where
  enterpriseValue : Option ℚ := none
  totalRevenue : Option ℚ := none
  ebitda : Option ℚ := none
  totalCash : Option ℚ := none
  totalDebt : Option ℚ := none
  trailingPE : Option ℚ := none
  peRatio : Option ℚ := none
  priceToBook : Option ℚ := none
  returnOnEquity : Option ℚ := none
  returnOnAssets : Option ℚ := none

/-- The `ratios` sub-object produced by `combineFinancialData`. -/
structure RatiosOut where
  peRatio : Option ℚ
  pbRatio : Option ℚ
  evRevenue : Option ℚ
  evEbitda : Option ℚ
  roe : Option ℚ
  roa : Option ℚ

/-- Embeds the `ratios` block of `combineFinancialData`
(background-compiled.js): each field is `hasExtendedData ? ... : null`,
with `evRevenue`/`evEbitda` computed through `calculateRatio` and
`peRatio` through the JS `||` chain `trailingPE || peRatio`. -/
def combineRatios (hasExtendedData : Bool) (ext : ExtendedData) : RatiosOut :=
  { peRatio := if hasExtendedData then jsOr ext.trailingPE ext.peRatio else none
  , pbRatio := if hasExtendedData then ext.priceToBook else none
  , evRevenue := if hasExtendedData then calculateRatio ext.enterpriseValue ext.totalRevenue else none
  , evEbitda := if hasExtendedData then calculateRatio ext.enterpriseValue ext.ebitda else none
  , roe := if hasExtendedData then ext.returnOnEquity else none
  , roa := if hasExtendedData then ext.returnOnAssets else none }

/-- Embeds the `netDebt` field of the `balanceSheet` block of
`combineFinancialData`: `hasExtendedData ? calculateNetDebt(totalDebt, totalCash) : null`. -/
def combineNetDebt (hasExtendedData : Bool) (ext : ExtendedData) : Option ℚ :=
  if hasExtendedData then calculateNetDebt ext.totalDebt ext.totalCash else none

/-- C10: `calculateRatio` returns `null` whenever either operand is `0`,
`null` or `undefined` (so a legitimately zero numerator reports as absent,
not as `0`), and returns the exact quotient exactly when both operands are
present and nonzero; `calculateNetDebt` likewise returns `null` whenever
either total debt or total cash is zero or missing, and the difference
otherwise. -/
theorem calculateRatio_netDebt_null_semantics :
    ∀ n d td tc : Option ℚ,
      ((n = none ∨ n = some 0 ∨ d = none ∨ d = some 0) → calculateRatio n d = none)
      ∧ (∀ a b : ℚ, n = some a → d = some b → a ≠ 0 → b ≠ 0 →
          calculateRatio n d = some (a / b))
      ∧ ((td = none ∨ td = some 0 ∨ tc = none ∨ tc = some 0) →
          calculateNetDebt td tc = none)
      ∧ (∀ a b : ℚ, td = some a → tc = some b → a ≠ 0 → b ≠ 0 →
          calculateNetDebt td tc = some (a - b)) := by
  intro n d td tc
  refine ⟨?_, ?_, ?_, ?_⟩
  · rintro (rfl | rfl | rfl | rfl)
    · cases d <;> simp [calculateRatio]
    · cases d <;> simp [calculateRatio]
    · cases n <;> simp [calculateRatio]
    · cases n <;> simp [calculateRatio]
  · rintro a b rfl rfl ha hb
    simp [calculateRatio, ha, hb]
  · rintro (rfl | rfl | rfl | rfl)
    · cases tc <;> simp [calculateNetDebt]
    · cases tc <;> simp [calculateNetDebt]
    · cases td <;> simp [calculateNetDebt]
    · cases td <;> simp [calculateNetDebt]
  · rintro a b rfl rfl ha hb
    simp [calculateNetDebt, ha, hb]

/-- Witness for C10 at concrete inputs: a zero numerator yields an absent
ratio, valid operands yield the exact quotient and difference. -/
theorem calculateRatio_netDebt_null_semantics_witness :
    calculateRatio (some 0) (some 5) = none
    ∧ calculateRatio (some 6) (some 3) = some 2
    ∧ calculateNetDebt (some 0) (some 5) = none
    ∧ calculateNetDebt (some 7) (some 3) = some 4 := by
  have h1 := calculateRatio_netDebt_null_semantics (some 0) (some 5) (some 0) (some 5)
  have h2 := calculateRatio_netDebt_null_semantics (some 6) (some 3) (some 7) (some 3)
  refine ⟨h1.1 (Or.inr (Or.inl rfl)), ?_, h1.2.2.1 (Or.inr (Or.inl rfl)), ?_⟩
  · have := h2.2.1 6 3 rfl rfl (by norm_num) (by norm_num)
    simpa [show (6 : ℚ) / 3 = 2 by norm_num] using this
  · have := h2.2.2.2 7 3 rfl rfl (by norm_num) (by norm_num)
    simpa [show (7 : ℚ) - 3 = 4 by norm_num] using this

/-- C2 (amended): in the ratio block of `combineFinancialData`, a ratio whose
denominator is missing or zero is reported absent (`none`) — never `0`, an
error, `Infinity` or `NaN` (the model produces no value at all there) — and
a ratio whose numerator *and* denominator are both present and nonzero is
present with its exact quotient, independently of the other fields of the
same call. -/
theorem combineRatios_zero_denominator_absent :
    ∀ ext : ExtendedData,
      ((ext.totalRevenue = none ∨ ext.totalRevenue = some 0) →
        (combineRatios true ext).evRevenue = none)
      ∧ ((ext.ebitda = none ∨ ext.ebitda = some 0) →
        (combineRatios true ext).evEbitda = none)
      ∧ (∀ a b : ℚ, ext.enterpriseValue = some a → a ≠ 0 →
          ext.totalRevenue = some b → b ≠ 0 →
          (combineRatios true ext).evRevenue = some (a / b))
      ∧ (∀ a c : ℚ, ext.enterpriseValue = some a → a ≠ 0 →
          ext.ebitda = some c → c ≠ 0 →
          (combineRatios true ext).evEbitda = some (a / c)) := by
  intro ext
  refine ⟨?_, ?_, ?_, ?_⟩
  · rintro (h | h) <;> cases hev : ext.enterpriseValue <;>
      simp [combineRatios, calculateRatio, h, hev]
  · rintro (h | h) <;> cases hev : ext.enterpriseValue <;>
      simp [combineRatios, calculateRatio, h, hev]
  · intro a b hev ha hrev hb
    simp [combineRatios, calculateRatio, hev, hrev, ha, hb]
  · intro a c hev ha heb hc
    simp [combineRatios, calculateRatio, hev, heb, ha, hc]

/-- Witness for the amended C2 at a concrete call: zero-denominator ratio
absent while the valid-operand ratio of the same call is present with its
exact quotient. -/
theorem combineRatios_zero_denominator_absent_witness :
    (combineRatios true
        { enterpriseValue := some 10, totalRevenue := some 0, ebitda := some 4 }).evRevenue
      = none
    ∧ (combineRatios true
        { enterpriseValue := some 10, totalRevenue := some 0, ebitda := some 4 }).evEbitda
      = some (10 / 4 : ℚ) := by
  have h := combineRatios_zero_denominator_absent
    { enterpriseValue := some 10, totalRevenue := some 0, ebitda := some 4 }
  exact ⟨h.1 (Or.inr rfl), h.2.2.2 10 4 rfl (by norm_num) rfl (by norm_num)⟩

/-- C2 counterexample: with `enterpriseValue = 0` and a present, nonzero
revenue denominator, `evRevenue` is reported absent even though its
denominator is valid — refuting the claim that every ratio computed from a
valid denominator in the same call remains present with its exact quotient. -/
theorem combineRatios_valid_denominator_can_be_absent :
    (combineRatios true
        { enterpriseValue := some 0, totalRevenue := some 5, ebitda := some 2 }).evRevenue
      = none
    ∧ ({ enterpriseValue := some 0, totalRevenue := some 5, ebitda := some 2
        : ExtendedData }).totalRevenue = some 5
    ∧ (5 : ℚ) ≠ 0 := by
  refine ⟨?_, rfl, by norm_num⟩
  simp [combineRatios, calculateRatio]

/-- ASCII-case-insensitive character equality, as the regex `/i` flag. -/
def ciEq (a b : Char) : Bool := a.toUpper == b.toUpper

/-- Does the keyword match at the start of the text, case-insensitively? -/
def startsWithCI : List Char → List Char → Bool
  | [], _ => true
  | _ :: _, [] => false
  | a :: as, b :: bs => ciEq a b && startsWithCI as bs

/-- The alternation of the recommendation regex
`/(STRONG BUY|BUY|HOLD|SELL|STRONG SELL)/i` in `callGeminiAPI`
(background-compiled.js), in source order. -/
def recommendationAlts : List (List Char) :=
  ["STRONG BUY".toList, "BUY".toList, "HOLD".toList, "SELL".toList,
    "STRONG SELL".toList]

/-- The first alternative matching at the start of `t`: the JS regex engine
tries the alternation left to right at a given position. -/
def firstAlt (alts : List (List Char)) (t : List Char) : Option (List Char) :=
  alts.find? (fun k => startsWithCI k t)

/-- Leftmost regex match: scan positions left to right, trying the
alternation at each position.  Returns the canonical keyword; the JS code
upper-cases the matched substring (`m[0].toUpperCase()`), which for these
all-ASCII upper-case keywords is exactly the alternative that matched. -/
def scanMatch (alts : List (List Char)) : List Char → Option (List Char)
  | [] => none
  | c :: cs =>
    match firstAlt alts (c :: cs) with
    | some k => some k
    | none => scanMatch alts cs

/-- Embeds the recommendation extraction of `callGeminiAPI`
(background-compiled.js):
`const m = fullText.match(/(STRONG BUY|BUY|HOLD|SELL|STRONG SELL)/i);`
`const recommendation = m ? m[0].toUpperCase() : 'HOLD';`. -/
def extractRecommendation (text : List Char) : List Char :=
  match scanMatch recommendationAlts text with
  | some k => k
  | none => "HOLD".toList

/-- `k` occurs case-insensitively as a contiguous substring of the text. -/
def occursCI (k : List Char) : List Char → Bool
  | [] => startsWithCI k []
  | c :: cs => startsWithCI k (c :: cs) || occursCI k cs

theorem scanMatch_mem {alts : List (List Char)} {t k : List Char}
    (h : scanMatch alts t = some k) : k ∈ alts := by
  induction t with
  | nil => simp [scanMatch] at h
  | cons c cs ih =>
    simp only [scanMatch] at h
    cases hf : firstAlt alts (c :: cs) with
    | some k' =>
      rw [hf] at h
      cases h
      exact List.mem_of_find?_eq_some hf
    | none =>
      rw [hf] at h
      exact ih h

theorem scanMatch_occurs {alts : List (List Char)} {t k : List Char}
    (h : scanMatch alts t = some k) : occursCI k t = true := by
  induction t with
  | nil => simp [scanMatch] at h
  | cons c cs ih =>
    simp only [scanMatch] at h
    cases hf : firstAlt alts (c :: cs) with
    | some k' =>
      rw [hf] at h
      cases h
      have hp := List.find?_some hf
      simp [occursCI, hp]
    | none =>
      rw [hf] at h
      simp [occursCI, ih h]

theorem scanMatch_none {alts : List (List Char)}
    (hne : ∀ k ∈ alts, k ≠ []) {t : List Char}
    (h : scanMatch alts t = none) : ∀ k ∈ alts, occursCI k t = false := by
  induction t with
  | nil =>
    intro k hk
    cases hko : k with
    | nil => exact absurd hko (hne k hk)
    | cons a as => simp [occursCI, startsWithCI]
  | cons c cs ih =>
    simp only [scanMatch] at h
    cases hf : firstAlt alts (c :: cs) with
    | some k' => rw [hf] at h; cases h
    | none =>
      rw [hf] at h
      intro k hk
      have hsw : startsWithCI k (c :: cs) = false := by
        have := List.find?_eq_none.mp hf k hk
        simpa using this
      simp [occursCI, hsw, ih h k hk]

/-- C1: for every final-answer text, the extracted recommendation lies in the
closed five-way set (upper case); when none of the five keywords occurs in
the text (case-insensitively) the category defaults to `HOLD`; when at least
one keyword occurs, the extracted category is a keyword that occurs in the
text; and on the concrete text "RECOMMENDATION: STRONG BUY" the extracted
category is exactly `STRONG BUY`. -/
theorem recommendation_extraction_closed_set :
    ∀ text : List Char,
      extractRecommendation text ∈ recommendationAlts
      ∧ ((∀ k ∈ recommendationAlts, occursCI k text = false) →
          extractRecommendation text = "HOLD".toList)
      ∧ ((∃ k ∈ recommendationAlts, occursCI k text = true) →
          occursCI (extractRecommendation text) text = true)
      ∧ extractRecommendation "RECOMMENDATION: STRONG BUY".toList
          = "STRONG BUY".toList := by
  intro text
  refine ⟨?_, ?_, ?_, by decide⟩
  · cases h : scanMatch recommendationAlts text with
    | some k => simpa [extractRecommendation, h] using scanMatch_mem h
    | none =>
      simp only [extractRecommendation, h]
      decide
  · intro hnone
    cases h : scanMatch recommendationAlts text with
    | some k =>
      exfalso
      have hocc := scanMatch_occurs h
      rw [hnone k (scanMatch_mem h)] at hocc
      cases hocc
    | none => simp [extractRecommendation, h]
  · rintro ⟨k, hk, hocc⟩
    cases h : scanMatch recommendationAlts text with
    | some k' => simpa [extractRecommendation, h] using scanMatch_occurs h
    | none =>
      exfalso
      have := scanMatch_none (by decide) h k hk
      rw [hocc] at this
      cases this

/-- Witness for C1 at a concrete keyword-free text: the default applies. -/
theorem recommendation_extraction_closed_set_witness :
    extractRecommendation "no signal in this text".toList = "HOLD".toList :=
  (recommendation_extraction_closed_set "no signal in this text".toList).2.1
    (by decide)

/-- C4: the compiled extraction has no contextual third tier.  On a final
answer containing "overvalued" and "concerning risks" but none of the five
keywords, the code extracts the default `HOLD`, not a sell-leaning category
as the specification (and the repository README's "3-Tier Extraction
System") describe. -/
theorem contextual_tier_absent_in_code :
    extractRecommendation
        "This stock is overvalued with concerning risks.".toList
      = "HOLD".toList
    ∧ occursCI "overvalued".toList
        "This stock is overvalued with concerning risks.".toList = true
    ∧ occursCI "concerning risks".toList
        "This stock is overvalued with concerning risks.".toList = true
    ∧ (∀ k ∈ recommendationAlts,
        occursCI k "This stock is overvalued with concerning risks.".toList
          = false) := by
  exact ⟨by decide, by decide, by decide, by decide⟩

/-- One quarter of the `revenue_trends` series (popup-tabbed.js). -/
structure RevQuarter where
  revenue : Option ℚ := none
  net_income : Option ℚ := none

/-- One quarter of the `cash_flow_trends` series. -/
structure CFQuarter where
  free_cash_flow : Option ℚ := none

/-- One quarter of the `balance_sheet_trends` series. -/
structure BSQuarter where
  total_debt : Option ℚ := none
  total_cash : Option ℚ := none

/-- Result record of `calculateGrowthTrend` (popup-tabbed.js).  The
`insufficient_data` early return of the source carries no `direction`
property, hence the `Option`. -/
structure GrowthTrendOut where
  trend : String
  qoq : Option ℚ
  yoy : Option ℚ
  direction : Option String

/-- The threshold chain of `calculateGrowthTrend` assigning
`(trend, direction)` from the quarter-over-quarter percentage change:
`>5` accelerating/up, `<-5` declining/down, `>2` growing/up, `<-2`
slowing/down, else the initial stable/flat. -/
def growthBands (q : ℚ) : String × String :=
  if q > 5 then ("accelerating", "up")
  else if q < -5 then ("declining", "down")
  else if q > 2 then ("growing", "up")
  else if q < -2 then ("slowing", "down")
  else ("stable", "flat")

/-- `const qoq = previous !== 0 ? ((latest - previous) / previous * 100) : null;`
with `latest = data[0]?.[field] || 0` and `previous = data[1]?.[field] || 0`. -/
def qoqOf (data : List RevQuarter) (f : RevQuarter → Option ℚ) : Option ℚ :=
  if orZero (data[1]?.bind f) ≠ 0 then
    some ((orZero (data[0]?.bind f) - orZero (data[1]?.bind f))
      / orZero (data[1]?.bind f) * 100)
  else none

/-- `const yearAgo = data.length >= 5 ? (data[4]?.[field] || 0) : 0;` and
`const yoy = yearAgo !== 0 ? ((latest - yearAgo) / yearAgo * 100) : null;`. -/
def yoyOf (data : List RevQuarter) (f : RevQuarter → Option ℚ) : Option ℚ :=
  if (if 5 ≤ data.length then orZero (data[4]?.bind f) else 0) ≠ 0 then
    some ((orZero (data[0]?.bind f)
        - (if 5 ≤ data.length then orZero (data[4]?.bind f) else 0))
      / (if 5 ≤ data.length then orZero (data[4]?.bind f) else 0) * 100)
  else none

/-- Embeds `calculateGrowthTrend` (popup-tabbed.js).  A `null` `data`
argument behaves like a too-short list and is collapsed into the length
guard. -/
def calculateGrowthTrend (data : List RevQuarter) (f : RevQuarter → Option ℚ) :
    GrowthTrendOut :=
  if data.length < 2 then ⟨"insufficient_data", none, none, none⟩
  else
    match qoqOf data f with
    | some q => ⟨(growthBands q).1, some q, yoyOf data f, some (growthBands q).2⟩
    | none => ⟨"stable", none, yoyOf data f, some "flat"⟩

/-- Result record of `calculateProfitabilityTrend`; the short-data early
return carries no `latestMargin`, hence the `Option` (the source formats it
as a percentage string; the model keeps the raw percentage). -/
structure ProfOut where
  trend : String
  marginDirection : String
  latestMargin : Option ℚ

/-- `const calculateMargin = (quarter) => { ... revenue > 0 ? (netIncome / revenue * 100) : 0 }`. -/
def calculateMargin (q : RevQuarter) : ℚ :=
  if orZero q.revenue > 0 then orZero q.net_income / orZero q.revenue * 100 else 0

/-- Embeds `calculateProfitabilityTrend` (popup-tabbed.js). -/
def calculateProfitabilityTrend : List RevQuarter → ProfOut
  | q0 :: q1 :: _ =>
    if calculateMargin q0 - calculateMargin q1 > 1 then
      ⟨"improving", "expanding", some (calculateMargin q0)⟩
    else if calculateMargin q0 - calculateMargin q1 < -1 then
      ⟨"declining", "contracting", some (calculateMargin q0)⟩
    else if calculateMargin q0 - calculateMargin q1 > 3/10 then
      ⟨"stable", "improving", some (calculateMargin q0)⟩
    else if calculateMargin q0 - calculateMargin q1 < -(3/10) then
      ⟨"stable", "weakening", some (calculateMargin q0)⟩
    else ⟨"stable", "stable", some (calculateMargin q0)⟩
  | _ => ⟨"stable", "stable", none⟩

/-- Result record of `calculateCashFlowTrend`; the raw latest free cash
flow replaces the source's formatted currency string. -/
structure CashOut where
  trend : String
  fcfTrend : String
  latestFCF : Option ℚ

/-- Embeds `calculateCashFlowTrend` (popup-tabbed.js):
`const change = previous !== 0 ? ((latest - previous) / previous * 100) : 0;`
then `>10` strengthening/improving, `<-10` weakening/declining, `>3`
growing, `<-3` contracting, else stable. -/
def calculateCashFlowTrend (cashFlowData : List CFQuarter) : CashOut :=
  if cashFlowData.length < 2 then ⟨"stable", "stable", none⟩
  else
    let latest := orZero (cashFlowData[0]?.bind CFQuarter.free_cash_flow)
    let previous := orZero (cashFlowData[1]?.bind CFQuarter.free_cash_flow)
    let change := if previous ≠ 0 then (latest - previous) / previous * 100 else 0
    if change > 10 then ⟨"strengthening", "improving", some latest⟩
    else if change < -10 then ⟨"weakening", "declining", some latest⟩
    else if change > 3 then ⟨"stable", "growing", some latest⟩
    else if change < -3 then ⟨"stable", "contracting", some latest⟩
    else ⟨"stable", "stable", some latest⟩

/-- Result record of `calculateBalanceSheetTrend`; the short-data early
return carries no `liquidity` property, hence the `Option`. -/
structure BalOut where
  trend : String
  debtTrend : String
  liquidity : Option String

/-- Embeds `calculateBalanceSheetTrend` (popup-tabbed.js). -/
def calculateBalanceSheetTrend : List BSQuarter → BalOut
  | b0 :: b1 :: _ =>
    let latestDebt := orZero b0.total_debt
    let previousDebt := orZero b1.total_debt
    let latestCash := orZero b0.total_cash
    let debtChange :=
      if previousDebt ≠ 0 then (latestDebt - previousDebt) / previousDebt * 100 else 0
    let cashToDebt := if latestDebt > 0 then latestCash / latestDebt else 0
    let debtTrend :=
      if debtChange > 5 then "increasing"
      else if debtChange < -5 then "decreasing"
      else "stable"
    if cashToDebt > 3/2 then ⟨"healthy", debtTrend, some "strong"⟩
    else if cashToDebt < 3/10 then ⟨"concerning", debtTrend, some "tight"⟩
    else ⟨"stable", debtTrend, some "adequate"⟩
  | _ => ⟨"stable", "stable", none⟩

/-- The `revenue_growth` sub-object of the insights record. -/
structure RevenueGrowthOut where
  trend : String
  latest_qoq : Option ℚ
  latest_yoy : Option ℚ
  direction : Option String
deriving DecidableEq

/-- The `profitability` sub-object of the insights record. -/
structure ProfitabilityOut where
  trend : String
  margin_direction : String
  latest_margin : Option ℚ
deriving DecidableEq

/-- The `cash_generation` sub-object of the insights record. -/
structure CashGenOut where
  trend : String
  fcf_trend : String
  latest_fcf : Option ℚ
deriving DecidableEq

/-- The `balance_sheet` sub-object of the insights record. -/
structure BalanceSheetOut where
  trend : String
  debt_trend : String
  liquidity : Option String
deriving DecidableEq

/-- The insights record assembled by `calculateEnhancedInsights`. -/
structure Insights where
  revenue_growth : RevenueGrowthOut
  profitability : ProfitabilityOut
  cash_generation : CashGenOut
  balance_sheet : BalanceSheetOut
deriving DecidableEq

/-- Embeds `getDefaultInsights` (popup-tabbed.js); the properties absent
from the source's literals are `none`. -/
def getDefaultInsights : Insights :=
  { revenue_growth := ⟨"stable", none, none, none⟩
  , profitability := ⟨"stable", "stable", none⟩
  , cash_generation := ⟨"stable", "stable", none⟩
  , balance_sheet := ⟨"stable", "stable", none⟩ }

/-- The `trends` object; a series absent from the payload
(`trends.revenue_trends || []`) is the empty list. -/
structure Trends where
  revenue_trends : List RevQuarter := []
  cash_flow_trends : List CFQuarter := []
  balance_sheet_trends : List BSQuarter := []

/-- Embeds `calculateEnhancedInsights` (popup-tabbed.js).  A missing
`trends` argument is `none`.  The source wraps the computation in
`try/catch` returning `getDefaultInsights` on error; every operation in the
body is total in this model, so the catch branch is unreachable and the
function never fails. -/
def calculateEnhancedInsights (trends : Option Trends) : Insights :=
  match trends with
  | none => getDefaultInsights
  | some t =>
    if t.revenue_trends.length < 2 then getDefaultInsights
    else
      { revenue_growth :=
          ⟨(calculateGrowthTrend t.revenue_trends RevQuarter.revenue).trend,
           (calculateGrowthTrend t.revenue_trends RevQuarter.revenue).qoq,
           (calculateGrowthTrend t.revenue_trends RevQuarter.revenue).yoy,
           (calculateGrowthTrend t.revenue_trends RevQuarter.revenue).direction⟩
      , profitability :=
          ⟨(calculateProfitabilityTrend t.revenue_trends).trend,
           (calculateProfitabilityTrend t.revenue_trends).marginDirection,
           (calculateProfitabilityTrend t.revenue_trends).latestMargin⟩
      , cash_generation :=
          ⟨(calculateCashFlowTrend t.cash_flow_trends).trend,
           (calculateCashFlowTrend t.cash_flow_trends).fcfTrend,
           (calculateCashFlowTrend t.cash_flow_trends).latestFCF⟩
      , balance_sheet :=
          ⟨(calculateBalanceSheetTrend t.balance_sheet_trends).trend,
           (calculateBalanceSheetTrend t.balance_sheet_trends).debtTrend,
           (calculateBalanceSheetTrend t.balance_sheet_trends).liquidity⟩ }

theorem growthBands_fst_spec (q : ℚ) :
    (5 < q → (growthBands q).1 = "accelerating")
    ∧ (q < -5 → (growthBands q).1 = "declining")
    ∧ (2 < q ∧ q ≤ 5 → (growthBands q).1 = "growing")
    ∧ (-5 ≤ q ∧ q < -2 → (growthBands q).1 = "slowing")
    ∧ (-2 ≤ q ∧ q ≤ 2 → (growthBands q).1 = "stable") := by
  unfold growthBands
  refine ⟨?_, ?_, ?_, ?_, ?_⟩ <;> intro h <;> split_ifs <;>
    first
      | rfl
      | (exfalso; rcases h with ⟨h1, h2⟩ <;> linarith)
      | (exfalso; linarith)

theorem calculateGrowthTrend_trend_eq (data : List RevQuarter)
    (f : RevQuarter → Option ℚ) (h2 : 2 ≤ data.length)
    (hpne : orZero (data[1]?.bind f) ≠ 0) :
    (calculateGrowthTrend data f).trend
      = (growthBands ((orZero (data[0]?.bind f) - orZero (data[1]?.bind f))
          / orZero (data[1]?.bind f) * 100)).1 := by
  have hlen : ¬ data.length < 2 := by omega
  simp [calculateGrowthTrend, qoqOf, hlen, hpne]

/-- C7: for data with at least two quarters and a nonzero previous-quarter
revenue, the fallback trend labelling maps the quarter-over-quarter revenue
change above +5% to "accelerating", below -5% to "declining", and otherwise
grades it into the "growing" (above +2%), "stable", or "slowing" (below
-2%) bands. -/
theorem growth_trend_bands :
    ∀ (data : List RevQuarter) (q : ℚ),
      2 ≤ data.length →
      orZero (data[1]?.bind RevQuarter.revenue) ≠ 0 →
      q = (orZero (data[0]?.bind RevQuarter.revenue)
            - orZero (data[1]?.bind RevQuarter.revenue))
          / orZero (data[1]?.bind RevQuarter.revenue) * 100 →
      ((5 < q →
          (calculateGrowthTrend data RevQuarter.revenue).trend = "accelerating")
       ∧ (q < -5 →
          (calculateGrowthTrend data RevQuarter.revenue).trend = "declining")
       ∧ (2 < q ∧ q ≤ 5 →
          (calculateGrowthTrend data RevQuarter.revenue).trend = "growing")
       ∧ (-5 ≤ q ∧ q < -2 →
          (calculateGrowthTrend data RevQuarter.revenue).trend = "slowing")
       ∧ (-2 ≤ q ∧ q ≤ 2 →
          (calculateGrowthTrend data RevQuarter.revenue).trend = "stable")) := by
  intro data q h2 hpne hq
  rw [calculateGrowthTrend_trend_eq data RevQuarter.revenue h2 hpne, ← hq]
  exact growthBands_fst_spec q

/-- Witness for C7 at concrete data: a +10% quarter-over-quarter revenue
change labels "accelerating". -/
theorem growth_trend_bands_witness :
    (calculateGrowthTrend
        [{ revenue := some 110 }, { revenue := some 100 }]
        RevQuarter.revenue).trend = "accelerating" := by
  have h := growth_trend_bands
    [{ revenue := some 110 }, { revenue := some 100 }] 10
    (by decide) (by norm_num [orZero]) (by norm_num [orZero])
  exact h.1 (by norm_num)

theorem calculateGrowthTrend_trend_mem (data : List RevQuarter)
    (f : RevQuarter → Option ℚ) :
    (calculateGrowthTrend data f).trend ∈
      (["insufficient_data", "stable", "accelerating", "declining", "growing",
        "slowing"] : List String) := by
  unfold calculateGrowthTrend growthBands
  split
  · simp
  · split <;> first | (split_ifs <;> simp) | simp

theorem calculateProfitabilityTrend_trend_mem (l : List RevQuarter) :
    (calculateProfitabilityTrend l).trend ∈
      (["stable", "improving", "declining"] : List String) := by
  cases l with
  | nil => simp [calculateProfitabilityTrend]
  | cons q0 t =>
    cases t with
    | nil => simp [calculateProfitabilityTrend]
    | cons q1 rest =>
      unfold calculateProfitabilityTrend
      dsimp only
      split_ifs <;> simp

theorem calculateCashFlowTrend_trend_mem (l : List CFQuarter) :
    (calculateCashFlowTrend l).trend ∈
      (["stable", "strengthening", "weakening"] : List String) := by
  simp only [calculateCashFlowTrend]
  split_ifs <;> simp

theorem calculateBalanceSheetTrend_trend_mem (l : List BSQuarter) :
    (calculateBalanceSheetTrend l).trend ∈
      (["stable", "healthy", "concerning"] : List String) := by
  cases l with
  | nil => simp [calculateBalanceSheetTrend]
  | cons b0 t =>
    cases t with
    | nil => simp [calculateBalanceSheetTrend]
    | cons b1 rest =>
      simp only [calculateBalanceSheetTrend]
      split_ifs <;> simp

/-- C9: `calculateEnhancedInsights` is total and conservative: for every
input it returns a complete insights record whose four trend labels lie in
their closed label sets, and both a missing trends object and fewer than
two revenue quarters yield exactly `getDefaultInsights` (every label
"stable"); the source's catch-all likewise yields the defaults, and the
model never fails. -/
theorem enhanced_insights_conservative :
    ∀ trends : Option Trends,
      (calculateEnhancedInsights trends).revenue_growth.trend ∈
        (["insufficient_data", "stable", "accelerating", "declining",
          "growing", "slowing"] : List String)
      ∧ (calculateEnhancedInsights trends).profitability.trend ∈
        (["stable", "improving", "declining"] : List String)
      ∧ (calculateEnhancedInsights trends).cash_generation.trend ∈
        (["stable", "strengthening", "weakening"] : List String)
      ∧ (calculateEnhancedInsights trends).balance_sheet.trend ∈
        (["stable", "healthy", "concerning"] : List String)
      ∧ (trends = none → calculateEnhancedInsights trends = getDefaultInsights)
      ∧ (∀ t, trends = some t → t.revenue_trends.length < 2 →
          calculateEnhancedInsights trends = getDefaultInsights) := by
  intro trends
  cases trends with
  | none =>
    exact ⟨by decide, by decide, by decide, by decide, fun _ => rfl,
      fun t h => Option.noConfusion h⟩
  | some t =>
    by_cases hlen : t.revenue_trends.length < 2
    · have he : calculateEnhancedInsights (some t) = getDefaultInsights := by
        simp [calculateEnhancedInsights, hlen]
      refine ⟨by rw [he]; decide, by rw [he]; decide, by rw [he]; decide,
        by rw [he]; decide, fun h => Option.noConfusion h, fun t' ht' _ => he⟩
    · refine ⟨?_, ?_, ?_, ?_, fun h => Option.noConfusion h,
        fun t' ht' hl => ?_⟩
      · simpa [calculateEnhancedInsights, hlen] using
          calculateGrowthTrend_trend_mem t.revenue_trends RevQuarter.revenue
      · simpa [calculateEnhancedInsights, hlen] using
          calculateProfitabilityTrend_trend_mem t.revenue_trends
      · simpa [calculateEnhancedInsights, hlen] using
          calculateCashFlowTrend_trend_mem t.cash_flow_trends
      · simpa [calculateEnhancedInsights, hlen] using
          calculateBalanceSheetTrend_trend_mem t.balance_sheet_trends
      · exfalso
        injection ht' with h'
        exact hlen (h' ▸ hl)

/-- Witness for C9: the defaults apply to a concrete one-quarter input. -/
theorem enhanced_insights_conservative_witness :
    calculateEnhancedInsights (some { revenue_trends := [{ revenue := some 3 }] })
      = getDefaultInsights :=
  (enhanced_insights_conservative
      (some { revenue_trends := [{ revenue := some 3 }] })).2.2.2.2.2
    { revenue_trends := [{ revenue := some 3 }] } rfl (by decide)

/-- The attributes of a decision-model call failure inspected by
`GeminiAPI.retry` (api/gemini.js): whether `error.message` contains
`RESOURCE_EXHAUSTED` (the quota/rate-limit signal) and the seconds captured
by its `retry in <n>s` pattern, if any.  The string inspection itself is
abstracted into these two derived fields. -/
structure GemError where
  resourceExhausted : Bool
  retryInSeconds : Option ℚ

/-- Outcome of one attempt of the wrapped thunk `fn`. -/
inductive Attempt (α : Type) where
  | ok (v : α)
  | err (e : GemError)

/-- Embeds the loop of `GeminiAPI.retry` (api/gemini.js) from attempt `i`
with `r` attempts remaining and current default delay `delay` (in
milliseconds): a success returns its value; the failure of the last attempt
is re-thrown; otherwise the wait before the next retry is
`Math.max(delay, suggested * 1000 + 500)` when the failure is a quota
signal carrying a suggested duration and `delay` otherwise, and the default
delay doubles after every wait (`delay *= 2`).  Returns the final outcome
(`none` models the `undefined` the JS function returns when `retries = 0`)
paired with the list of waits performed, in order. -/
def retryGo {α : Type} (outcomes : Nat → Attempt α) :
    Nat → Nat → ℚ → Option (Except GemError α) × List ℚ
  | _, 0, _ => (none, [])
  | i, r + 1, delay =>
    match outcomes i with
    | .ok v => (some (.ok v), [])
    | .err e =>
      if r = 0 then (some (.error e), [])
      else
        let d :=
          if e.resourceExhausted then
            match e.retryInSeconds with
            | some s => max delay (s * 1000 + 500)
            | none => delay
          else delay
        let rest := retryGo outcomes (i + 1) r (d * 2)
        (rest.1, d :: rest.2)

/-- `GeminiAPI.retry(fn, retries, delay)`; the JS defaults are
`retries = 3`, `delay = 1000`. -/
def retry {α : Type} (outcomes : Nat → Attempt α) (retries : Nat)
    (delay : ℚ) : Option (Except GemError α) × List ℚ :=
  retryGo outcomes 0 retries delay

theorem retryGo_wait_ge_suggested {α : Type} (outcomes : Nat → Attempt α) :
    ∀ (r i : Nat) (delay : ℚ) (k : Nat) (w : ℚ),
      (retryGo outcomes i r delay).2[k]? = some w →
      ∀ e s, outcomes (i + k) = .err e → e.resourceExhausted = true →
        e.retryInSeconds = some s → s * 1000 ≤ w := by
  intro r
  induction r with
  | zero => intro i delay k w h; simp [retryGo] at h
  | succ r ih =>
    intro i delay k w h e s houtcome hre hrs
    rw [retryGo] at h
    cases ho : outcomes i with
    | ok v => rw [ho] at h; simp at h
    | err e0 =>
      rw [ho] at h
      dsimp only at h
      by_cases hr : r = 0
      · rw [if_pos hr] at h; simp at h
      · rw [if_neg hr] at h
        simp only at h
        cases k with
        | zero =>
          simp only [List.getElem?_cons_zero, Option.some.injEq] at h
          subst h
          have he0 : e0 = e := by
            have : outcomes i = .err e := by simpa using houtcome
            rw [ho] at this
            injection this
          subst he0
          rw [hre, hrs]
          calc s * 1000 ≤ s * 1000 + 500 := by linarith
            _ ≤ max delay (s * 1000 + 500) := le_max_right _ _
        | succ k =>
          simp only [List.getElem?_cons_succ] at h
          have := ih (i + 1) _ k w h e s (by
            simpa [Nat.add_assoc, Nat.add_comm 1 k] using houtcome) hre hrs
          exact this

theorem retryGo_default_doubling {α : Type} (outcomes : Nat → Attempt α)
    (hnq : ∀ j e, outcomes j = .err e →
      e.resourceExhausted = false ∨ e.retryInSeconds = none) :
    ∀ (r i : Nat) (delay : ℚ) (k : Nat) (w : ℚ),
      (retryGo outcomes i r delay).2[k]? = some w → w = delay * 2 ^ k := by
  intro r
  induction r with
  | zero => intro i delay k w h; simp [retryGo] at h
  | succ r ih =>
    intro i delay k w h
    rw [retryGo] at h
    cases ho : outcomes i with
    | ok v => rw [ho] at h; simp at h
    | err e0 =>
      rw [ho] at h
      dsimp only at h
      by_cases hr : r = 0
      · rw [if_pos hr] at h; simp at h
      · rw [if_neg hr] at h
        simp only at h
        have hd : (if e0.resourceExhausted then
            match e0.retryInSeconds with
            | some s => max delay (s * 1000 + 500)
            | none => delay
          else delay) = delay := by
          rcases hnq i e0 ho with hfalse | hnone
          · rw [hfalse]; rfl
          · cases hre : e0.resourceExhausted
            · rfl
            · rw [hnone]; simp
        rw [hd] at h
        cases k with
        | zero =>
          simp only [List.getElem?_cons_zero, Option.some.injEq] at h
          subst h
          ring
        | succ k =>
          simp only [List.getElem?_cons_succ] at h
          have := ih (i + 1) (delay * 2) k w h
          rw [this]
          ring

theorem retryGo_exhausted {α : Type} (outcomes : Nat → Attempt α) :
    ∀ (r i : Nat) (delay : ℚ),
      1 ≤ r → (∀ j, i ≤ j → j < i + r → ∃ e, outcomes j = .err e) →
      ∃ e, outcomes (i + r - 1) = .err e
        ∧ (retryGo outcomes i r delay).1 = some (.error e) := by
  intro r
  induction r with
  | zero => intro i delay h1; omega
  | succ r ih =>
    intro i delay h1 hall
    obtain ⟨e0, he0⟩ := hall i (le_refl i) (by omega)
    by_cases hr : r = 0
    · subst hr
      refine ⟨e0, by simpa using he0, ?_⟩
      rw [retryGo, he0]
      simp
    · obtain ⟨e, he, hres⟩ := ih (i + 1) (((if e0.resourceExhausted then
        match e0.retryInSeconds with
        | some s => max delay (s * 1000 + 500)
        | none => delay
        else delay)) * 2) (by omega) (fun j hj1 hj2 => hall j (by omega) (by omega))
      refine ⟨e, by simpa [show i + 1 + r - 1 = i + (r + 1) - 1 by omega] using he, ?_⟩
      rw [retryGo, he0]
      dsimp only
      rw [if_neg hr]
      simpa using hres

/-- C6: in `GeminiAPI.retry`, every wait that follows a quota/rate-limit
failure carrying a machine-suggested duration of `s` seconds is at least
`s * 1000` milliseconds; when no failure carries an honoured suggestion the
default delay doubles on each subsequent retry (the `k`-th wait is
`delay * 2 ^ k`); and when every attempt up to the cap fails, the helper
propagates the last failure as an error instead of returning a value. -/
theorem retry_backoff_discipline :
    ∀ (α : Type) (outcomes : Nat → Attempt α) (retries : Nat) (delay0 : ℚ),
      (∀ k w, (retry outcomes retries delay0).2[k]? = some w →
        ∀ e s, outcomes k = .err e → e.resourceExhausted = true →
          e.retryInSeconds = some s → s * 1000 ≤ w)
      ∧ ((∀ j e, outcomes j = .err e →
            e.resourceExhausted = false ∨ e.retryInSeconds = none) →
          ∀ k w, (retry outcomes retries delay0).2[k]? = some w →
            w = delay0 * 2 ^ k)
      ∧ (1 ≤ retries → (∀ j, j < retries → ∃ e, outcomes j = .err e) →
          ∃ e, outcomes (retries - 1) = .err e
            ∧ (retry outcomes retries delay0).1 = some (.error e)) := by
  intro α outcomes retries delay0
  refine ⟨?_, ?_, ?_⟩
  · intro k w h e s houtcome hre hrs
    exact retryGo_wait_ge_suggested outcomes retries 0 delay0 k w h e s
      (by simpa using houtcome) hre hrs
  · intro hnq k w h
    exact retryGo_default_doubling outcomes hnq retries 0 delay0 k w h
  · intro h1 hall
    have := retryGo_exhausted outcomes retries 0 delay0 h1
      (fun j hj1 hj2 => hall j (by omega))
    simpa using this

/-- Witness for C6 at a concrete run: three attempts, each failing with a
quota signal suggesting 2 seconds; the first wait honours the suggestion
(2500 ≥ 2000 ms) and the final outcome propagates the last failure. -/
theorem retry_backoff_discipline_witness :
    (2 : ℚ) * 1000 ≤ 2500
    ∧ (retry (α := Nat) (fun _ => .err ⟨true, some 2⟩) 3 1000).1
        = some (.error ⟨true, some 2⟩) := by
  have h := retry_backoff_discipline Nat (fun _ => .err ⟨true, some 2⟩) 3 1000
  have hlist : (retry (α := Nat) (fun _ => .err ⟨true, some 2⟩) 3 1000).2[0]?
      = some 2500 := by
    simp [retry, retryGo]
    norm_num
  refine ⟨h.1 0 2500 hlist ⟨true, some 2⟩ 2 rfl rfl rfl, ?_⟩
  obtain ⟨e, he, hres⟩ := h.2.2 (by norm_num)
    (fun j _ => ⟨⟨true, some 2⟩, rfl⟩)
  have he' : e = ⟨true, some 2⟩ := by
    injection he with h'
    exact h'.symm
  rw [he'] at hres
  exact hres

/-- A successful `callGeminiAPI` result: cleaned analysis text and the
extracted recommendation. -/
structure GeminiAnalysis where
  analysis : String
  recommendation : String
deriving DecidableEq

/-- The environment of one background message (background-compiled.js): the
stored credential and the value each awaited external call settles with
(`.error` models a thrown/rejected error carrying `error.message`; for
`callGeminiAPI` this is the state after its own three internal attempts). -/
structure MsgEnv where
  geminiApiKey : Option String
  geminiCall : Except String GeminiAnalysis
  fastApiCall : Except String String
  yahooCall : Except String String
  trendsCall : Except String String

/-- The modelled actions of the background message switch. -/
inductive MsgAction where
  | analyzeQuarterlyData
  | fetchAdvancedStockData
  | fetchQuarterlyTrends
  | unknown (name : String)

/-- The structured object passed to `sendResponse`; fields absent from a
given case's literal are `none`. -/
structure MsgResponse where
  success : Bool
  analysis : Option String := none
  recommendation : Option String := none
  payload : Option String := none
  error : Option String := none
  errorType : Option String := none
deriving DecidableEq

/-- `error.message || fallbackText`: the empty string is the only falsy
string. -/
def msgOr (m fallbackText : String) : String :=
  if m = "" then fallbackText else m

/-- Embeds the asynchronous `handleMessage` closure of the background
message listener (background-compiled.js) for the modelled actions.  Every
`throw` inside a case body is caught by that case's `try/catch` (or the
outer catch-all), so the embedding is a total function into structured
responses:
* `analyzeQuarterlyData`: a missing Gemini key throws
  "Gemini API Key not configured..."; any throw is folded into a
  `success:false` response with `errorType` `AIAnalysisError`.
* `fetchAdvancedStockData`: FastAPI first, the Yahoo fallback second; if
  both fail, the case catch produces the error response.
* `fetchQuarterlyTrends`: fetch or a `QuarterlyTrendsError` response.
* unknown actions take the default branch. -/
def handleMessage (env : MsgEnv) : MsgAction → MsgResponse
  | .analyzeQuarterlyData =>
    match env.geminiApiKey with
    | none =>
      { success := false
      , error := some (msgOr
          "Gemini API Key not configured. Please set it in extension options."
          "Failed to analyze quarterly data")
      , errorType := some "AIAnalysisError" }
    | some _ =>
      match env.geminiCall with
      | .ok r =>
        { success := true
        , analysis := some r.analysis
        , recommendation := some r.recommendation }
      | .error m =>
        { success := false
        , error := some (msgOr m "Failed to analyze quarterly data")
        , errorType := some "AIAnalysisError" }
  | .fetchAdvancedStockData =>
    match env.fastApiCall with
    | .ok d => { success := true, payload := some d }
    | .error _ =>
      match env.yahooCall with
      | .ok d => { success := true, payload := some d }
      | .error m =>
        { success := false
        , error := some (msgOr m "Failed to fetch advanced financial data") }
  | .fetchQuarterlyTrends =>
    match env.trendsCall with
    | .ok d => { success := true, payload := some d }
    | .error m =>
      { success := false
      , error := some (msgOr m "Failed to fetch quarterly trends")
      , errorType := some "QuarterlyTrendsError" }
  | .unknown name =>
    { success := false, error := some ("Unknown action: " ++ name) }

/-- C8 (amended): for every environment and modelled action the caller
receives a structured response — the embedding is total because every
thrown error is caught — and the worst case is a `success := false`
response that always carries an explanatory error message, never an
uncaught (bare) exception.  (A failure carries no analysis payload, rather
than the low-confidence fallback AnalysisResult the original claim
states.) -/
theorem message_response_always_structured :
    ∀ (env : MsgEnv) (action : MsgAction),
      (handleMessage env action).success = true
      ∨ ((handleMessage env action).success = false
          ∧ (handleMessage env action).error.isSome = true) := by
  intro env action
  cases action with
  | analyzeQuarterlyData =>
    cases hk : env.geminiApiKey with
    | none => right; simp [handleMessage, hk]
    | some k =>
      cases hg : env.geminiCall with
      | ok r => left; simp [handleMessage, hk, hg]
      | error m => right; simp [handleMessage, hk, hg]
  | fetchAdvancedStockData =>
    cases hf : env.fastApiCall with
    | ok d => left; simp [handleMessage, hf]
    | error m =>
      cases hy : env.yahooCall with
      | ok d => left; simp [handleMessage, hf, hy]
      | error m2 => right; simp [handleMessage, hf, hy]
  | fetchQuarterlyTrends =>
    cases ht : env.trendsCall with
    | ok d => left; simp [handleMessage, ht]
    | error m => right; simp [handleMessage, ht]
  | unknown name => right; simp [handleMessage]

/-- C8 counterexample: with both the FastAPI call and the Yahoo fallback
failing, the caller of `fetchAdvancedStockData` receives a caller-visible
`success := false` error response with no analysis and no payload — not a
low-confidence fallback AnalysisResult with an explanatory note, as the
claim states. -/
theorem message_failure_is_error_response_not_result :
    handleMessage
        { geminiApiKey := none
        , geminiCall := .error "network"
        , fastApiCall := .error "ECONNREFUSED"
        , yahooCall := .error "blocked"
        , trendsCall := .error "offline" }
        .fetchAdvancedStockData
      = { success := false, error := some "blocked" } := by
  rfl

/-- C5 (amended): when the Gemini credential is absent, the
`analyzeQuarterlyData` request yields a structured failure response with
`errorType` `AIAnalysisError` and an explanatory message — not an uncaught
exception — and no fallback analysis result is produced. -/
theorem missing_key_yields_structured_error :
    ∀ env : MsgEnv, env.geminiApiKey = none →
      (handleMessage env .analyzeQuarterlyData).success = false
      ∧ (handleMessage env .analyzeQuarterlyData).errorType
          = some "AIAnalysisError"
      ∧ (handleMessage env .analyzeQuarterlyData).error.isSome = true
      ∧ (handleMessage env .analyzeQuarterlyData).analysis = none := by
  intro env h
  simp [handleMessage, h, msgOr]

/-- Witness for the amended C5 at a concrete keyless environment. -/
theorem missing_key_yields_structured_error_witness :
    (handleMessage
        { geminiApiKey := none, geminiCall := .error "unused"
        , fastApiCall := .ok "d", yahooCall := .ok "d", trendsCall := .ok "d" }
        .analyzeQuarterlyData).errorType = some "AIAnalysisError" :=
  (missing_key_yields_structured_error
    { geminiApiKey := none, geminiCall := .error "unused"
    , fastApiCall := .ok "d", yahooCall := .ok "d", trendsCall := .ok "d" }
    rfl).2.1

/-- C5 counterexample: at a concrete environment with no credential the
caller receives `success := false` and no analysis at all — the request
does not transition to a fallback analyzer and the caller does not receive
an analysis result, refuting the claim. -/
theorem missing_key_no_fallback_analysis :
    (handleMessage
        { geminiApiKey := none, geminiCall := .ok ⟨"text", "BUY"⟩
        , fastApiCall := .ok "d", yahooCall := .ok "d", trendsCall := .ok "d" }
        .analyzeQuarterlyData).success = false
    ∧ (handleMessage
        { geminiApiKey := none, geminiCall := .ok ⟨"text", "BUY"⟩
        , fastApiCall := .ok "d", yahooCall := .ok "d", trendsCall := .ok "d" }
        .analyzeQuarterlyData).analysis = none := ⟨rfl, rfl⟩

theorem extractRecommendation_default {text : List Char}
    (h : ∀ k ∈ recommendationAlts, occursCI k text = false) :
    extractRecommendation text = "HOLD".toList := by
  cases hm : scanMatch recommendationAlts text with
  | some k =>
    exfalso
    have hocc := scanMatch_occurs hm
    rw [h k (scanMatch_mem hm)] at hocc
    cases hocc
  | none => simp [extractRecommendation, hm]

/-- Modelled from the spec: a tool invocation requested by the decision
model.  The agentic orchestrator of §4.4 is not among the sources of this
repository (only its UI consumers and documentation are), so its data
model is taken from the specification's words. -/
structure ToolInvocation where
  name : String
  args : List (String × String)

/-- Modelled from the spec: the result of dispatching one invocation. -/
structure ToolResult where
  toolName : String
  ok : Bool
  payload : String

/-- Modelled from the spec: a decision is either a final text answer or a
request to invoke one or more named tools. -/
inductive DecisionOutcome where
  | finalAnswer (text : List Char)
  | toolRequests (reqs : List ToolInvocation)

/-- Is the outcome a tool-request round? -/
def DecisionOutcome.isToolRequests : DecisionOutcome → Bool
  | .finalAnswer _ => false
  | .toolRequests _ => true

/-- Modelled from the spec: one turn of the conversation state. -/
inductive Turn where
  | systemMsg (text : List Char)
  | userReq (text : List Char)
  | modelText (text : List Char)
  | toolTurn (r : ToolResult)

/-- The concatenated model-generated text of a conversation, the material
from which a best-effort recommendation is synthesized at the cap. -/
def conversationText : List Turn → List Char
  | [] => []
  | .modelText t :: rest => t ++ conversationText rest
  | _ :: rest => conversationText rest

/-- Modelled from the spec: the terminal artifact returned to the caller. -/
structure AnalysisResult where
  narrative : List Char
  recommendation : List Char
  toolsUsed : List String
  iterations : Nat
  iterationCapped : Bool
  fallbackUsed : Bool

/-- Modelled from the spec: the fixed maximum number of decision rounds. -/
def maxRounds : Nat := 5

/-- Modelled from the spec (§4.4): the decision loop.  `fuel` is the number
of rounds still allowed, `rounds` the number already performed.  A
`FinalAnswer` finishes with the recommendation extracted from its text; a
`ToolRequests` round dispatches each request in order, appends the results
to the conversation and loops; exhausting the bound synthesizes a
best-effort result from the partial conversation (recommendation extracted
from the model-generated turns, defaulting to HOLD) flagged
iteration-capped. -/
def orchLoop (client : List Turn → DecisionOutcome)
    (dispatch : ToolInvocation → ToolResult) :
    Nat → List Turn → Nat → List String → AnalysisResult
  | 0, conv, rounds, tools =>
    { narrative := conversationText conv
    , recommendation := extractRecommendation (conversationText conv)
    , toolsUsed := tools
    , iterations := rounds
    , iterationCapped := true
    , fallbackUsed := false }
  | fuel + 1, conv, rounds, tools =>
    match client conv with
    | .finalAnswer t =>
      { narrative := t
      , recommendation := extractRecommendation t
      , toolsUsed := tools
      , iterations := rounds + 1
      , iterationCapped := false
      , fallbackUsed := false }
    | .toolRequests reqs =>
      orchLoop client dispatch fuel
        (conv ++ reqs.map (fun r => Turn.toolTurn (dispatch r)))
        (rounds + 1) (tools ++ reqs.map ToolInvocation.name)

/-- Modelled from the spec: run one analysis session, seeding the
conversation with the system instruction and the ticker request. -/
def runAgent (client : List Turn → DecisionOutcome)
    (dispatch : ToolInvocation → ToolResult) (ticker : List Char) :
    AnalysisResult :=
  orchLoop client dispatch maxRounds
    [Turn.systemMsg "Financial analyst persona; answer with one of the five categories.".toList,
     Turn.userReq ticker] 0 []

theorem orchLoop_iterations_le (client : List Turn → DecisionOutcome)
    (dispatch : ToolInvocation → ToolResult) :
    ∀ (fuel : Nat) (conv : List Turn) (rounds : Nat) (tools : List String),
      (orchLoop client dispatch fuel conv rounds tools).iterations
        ≤ rounds + fuel := by
  intro fuel
  induction fuel with
  | zero => intro conv rounds tools; simp [orchLoop]
  | succ fuel ih =>
    intro conv rounds tools
    rw [orchLoop]
    cases hc : client conv with
    | finalAnswer t => simp
    | toolRequests reqs =>
      have := ih (conv ++ reqs.map (fun r => Turn.toolTurn (dispatch r)))
        (rounds + 1) (tools ++ reqs.map ToolInvocation.name)
      simp only []
      omega

theorem orchLoop_capped (client : List Turn → DecisionOutcome)
    (dispatch : ToolInvocation → ToolResult)
    (hc : ∀ conv, (client conv).isToolRequests = true) :
    ∀ (fuel : Nat) (conv : List Turn) (rounds : Nat) (tools : List String),
      (orchLoop client dispatch fuel conv rounds tools).iterationCapped = true
      ∧ (orchLoop client dispatch fuel conv rounds tools).iterations
          = rounds + fuel
      ∧ (orchLoop client dispatch fuel conv rounds tools).recommendation
          = extractRecommendation
              (orchLoop client dispatch fuel conv rounds tools).narrative := by
  intro fuel
  induction fuel with
  | zero => intro conv rounds tools; exact ⟨rfl, rfl, rfl⟩
  | succ fuel ih =>
    intro conv rounds tools
    rw [orchLoop]
    cases hcv : client conv with
    | finalAnswer t =>
      exfalso
      have := hc conv
      rw [hcv] at this
      cases this
    | toolRequests reqs =>
      have := ih (conv ++ reqs.map (fun r => Turn.toolTurn (dispatch r)))
        (rounds + 1) (tools ++ reqs.map ToolInvocation.name)
      refine ⟨this.1, ?_, this.2.2⟩
      rw [this.2.1]
      omega

/-- C3 (modelled from the spec, §4.4): for every decision client, dispatcher
and ticker, the orchestrator performs at most 5 decision rounds; when the
client never returns a FinalAnswer, the run still yields a complete
AnalysisResult flagged iteration-capped after exactly 5 rounds, whose
recommendation is synthesized from the partial conversation and defaults to
HOLD when no recommendation signal occurs in it. -/
theorem orchestrator_iteration_bound :
    ∀ (client : List Turn → DecisionOutcome)
      (dispatch : ToolInvocation → ToolResult) (ticker : List Char),
      (runAgent client dispatch ticker).iterations ≤ maxRounds
      ∧ ((∀ conv, (client conv).isToolRequests = true) →
          (runAgent client dispatch ticker).iterationCapped = true
          ∧ (runAgent client dispatch ticker).iterations = maxRounds
          ∧ ((∀ k ∈ recommendationAlts,
                occursCI k (runAgent client dispatch ticker).narrative = false) →
              (runAgent client dispatch ticker).recommendation
                = "HOLD".toList)) := by
  intro client dispatch ticker
  constructor
  · simpa [runAgent] using orchLoop_iterations_le client dispatch maxRounds _ 0 []
  · intro hc
    have h := orchLoop_capped client dispatch hc maxRounds
      [Turn.systemMsg "Financial analyst persona; answer with one of the five categories.".toList,
       Turn.userReq ticker] 0 []
    refine ⟨h.1, by simpa [runAgent] using h.2.1, ?_⟩
    intro hno
    have hrec := h.2.2
    rw [show orchLoop client dispatch maxRounds
      [Turn.systemMsg "Financial analyst persona; answer with one of the five categories.".toList,
       Turn.userReq ticker] 0 [] = runAgent client dispatch ticker from rfl] at hrec
    rw [hrec]
    exact extractRecommendation_default hno

/-- Witness for C3: a client that always requests tools reaches the cap and
the synthesized recommendation defaults to HOLD. -/
theorem orchestrator_iteration_bound_witness :
    (runAgent (fun _ => .toolRequests []) (fun r => ⟨r.name, false, ""⟩)
        "AAPL".toList).iterationCapped = true
    ∧ (runAgent (fun _ => .toolRequests []) (fun r => ⟨r.name, false, ""⟩)
        "AAPL".toList).iterations = maxRounds
    ∧ (runAgent (fun _ => .toolRequests []) (fun r => ⟨r.name, false, ""⟩)
        "AAPL".toList).recommendation = "HOLD".toList := by
  have h := (orchestrator_iteration_bound (fun _ => .toolRequests [])
    (fun r => ⟨r.name, false, ""⟩) "AAPL".toList).2 (fun conv => rfl)
  exact ⟨h.1, h.2.1, h.2.2 (by decide)⟩
